import Mathlib

/-!
# Verification of the El Cedro inventory-balance analyzer

A shallow embedding of the core logic of `app.py` (schema resolution,
KPI aggregation, suggestion engine, display/export split) together with
theorems settling the specification claims.

Conventions of the embedding:
* A pandas DataFrame row becomes a `Row`: the three base columns plus a
  function giving the (already integer-coerced) value of each inventory
  column and a function giving the textual content of each classification
  column.
* `class_cols` (dict mapping an inventory column to its `.1`
  classification column, or `None`) becomes `String → Option String`.
* Indexing a frame/series with `None` raises `KeyError` in Python; the
  functions that can do so return `Except Unit _`, with `.error ()` as
  the raised exception.
* Python `str.strip()` is `pyStrip`, `"sin" in s.lower()` is
  `containsSin`.
-/

/-- Python `str.strip()`: drop whitespace from both ends of the string. -/
def pyStrip (s : String) : String :=
  ⟨((s.data.dropWhile Char.isWhitespace).reverse.dropWhile Char.isWhitespace).reverse⟩

/-- Does the character list contain the letters `s`,`i`,`n` consecutively? -/
def hasSinAux : List Char → Bool
  | 's' :: 'i' :: 'n' :: _ => true
  | _ :: rest => hasSinAux rest
  | [] => false

/-- Python `"sin" in s.lower()`: the no-movement marker test used by
`compute_kpis`, `build_suggestions`, `build_reverse_suggestions` and
`get_base_c_sinmov`. -/
def containsSin (s : String) : Bool :=
  hasSinAux (s.data.map Char.toLower)

/-- Python `clas in ["A", "B"]` (after stripping). -/
def isAB (s : String) : Bool :=
  decide (s = "A") || decide (s = "B")

/-- One row of the loaded `Balance.csv` after `load_balance`:
`qty w` is the integer value of inventory column `w` (already coerced by
`pd.to_numeric(...).fillna(0).astype(int)`), `cell c` is the textual
content of column `c` (used for the classification columns). -/
structure Row where
  codigo : String
  clave : String
  descripcion : String
  qty : String → Int
  cell : String → String

/-- A suggestion record appended to `registros` by `build_suggestions`
or `build_reverse_suggestions` (the dict of nine columns). -/
structure Sug where
  codigo : String
  clave : String
  descripcion : String
  almacenOrigen : String
  existenciaOrigen : Int
  clasifOrigen : String
  almacenDestino : String
  existenciaDestino : Int
  clasifDestino : String
deriving DecidableEq

/-- Python `row[class_cols[w]]`: when `class_cols[w]` is `None` the
lookup `row[None]` raises `KeyError`, modeled as `Except.error ()`. -/
def classCell (classCols : String → Option String) (r : Row) (w : String) :
    Except Unit String :=
  match classCols w with
  | none => .error ()
  | some c => .ok (r.cell c)

/-- Build the dict appended to `registros`. -/
def mkSug (r : Row) (o : String) (existO : Int) (clasO : String)
    (d : String) (existD : Int) (clasD : String) : Sug :=
  ⟨r.codigo, r.clave, r.descripcion, o, existO, clasO, d, existD, clasD⟩

/-- Comparison used to model
`sort_values(by=["Existencia destino", "Clave"], ascending=[False, True])`:
destination quantity descending, then Key ascending. -/
def sugLeb (a b : Sug) : Bool :=
  decide (b.existenciaDestino < a.existenciaDestino) ||
    (decide (a.existenciaDestino = b.existenciaDestino) &&
      decide (a.clave.data ≤ b.clave.data))

/-- The order of `sugLeb` as a proposition: destination quantity
descending, ties broken by Key ascending. -/
def sugOrden (a b : Sug) : Prop :=
  b.existenciaDestino < a.existenciaDestino ∨
    (a.existenciaDestino = b.existenciaDestino ∧ a.clave.data ≤ b.clave.data)

/-- Inner `for dest_inv_col in dest_inv_cols` loop of `build_suggestions`:
reads `exist_d = int(row[dest_inv_col])` and
`clas_d = str(row[dest_class_col]).strip()` (which raises when the
destination has no classification column), skips the pair when
`exist_d <= 0` or the destination classification is neither `"C"` nor a
no-movement marker, and otherwise appends the record. -/
def sugDestLoop (classCols : String → Option String) (o : String)
    (existO : Int) (clasO : String) (r : Row) :
    List String → Except Unit (List Sug)
  | [] => .ok []
  | d :: rest =>
    match classCell classCols r d with
    | .error e => .error e
    | .ok cellv =>
      let existD := r.qty d
      let clasD := pyStrip cellv
      match sugDestLoop classCols o existO clasO r rest with
      | .error e => .error e
      | .ok tail =>
        if existD ≤ 0 then .ok tail
        else if clasD = "C" ∨ containsSin clasD then
          .ok (mkSug r o existO clasO d existD clasD :: tail)
        else .ok tail

/-- Outer `for _, row in data_filtrada.iterrows()` loop of
`build_suggestions`, over the rows that already passed the origin
filter. -/
def sugRowLoop (classCols : String → Option String) (o oc : String)
    (dests : List String) : List Row → Except Unit (List Sug)
  | [] => .ok []
  | r :: rest =>
    match sugDestLoop classCols o (r.qty o) (pyStrip (r.cell oc)) r dests with
    | .error e => .error e
    | .ok recs =>
      match sugRowLoop classCols o oc dests rest with
      | .error e => .error e
      | .ok tail => .ok (recs ++ tail)

/-- `build_suggestions(data, inv_cols, class_cols, origin_inv_col,
dest_inv_cols, umbral_bajos_ab)` from `app.py`: origin filter
classification `A`/`B` regardless of quantity, destination filter
quantity `> 0` and classification `C` or no-movement, result sorted by
destination quantity descending then Key ascending.  When
`class_cols[origin_inv_col]` is `None` the column access raises. -/
def build_suggestions (data : List Row) (classCols : String → Option String)
    (origin_inv_col : String) (dest_inv_cols : List String) :
    Except Unit (List Sug) :=
  match classCols origin_inv_col with
  | none => .error ()
  | some oc =>
    let filtered := data.filter (fun r => isAB (pyStrip (r.cell oc)))
    (sugRowLoop classCols origin_inv_col oc dest_inv_cols filtered).map
      (fun recs => recs.mergeSort sugLeb)

/-- The destination classification of row `r` at destination `d`
(defined only when the destination has a classification column; the
`none` branch is arbitrary and never used under that hypothesis). -/
def destClas (classCols : String → Option String) (r : Row) (d : String) :
    String :=
  match classCols d with
  | some c => pyStrip (r.cell c)
  | none => ""

/-- The forward/uncapped inclusion rule exactly as the specification
states it: destination quantity `> 0` and destination classification
`C` or the no-movement marker. -/
def forwardPairOK (classCols : String → Option String) (r : Row) (d : String) :
    Bool :=
  decide (0 < r.qty d) &&
    (decide (destClas classCols r d = "C") || containsSin (destClas classCols r d))

/-- The forward/uncapped result set as the specification describes it:
one record per (inventory record, destination) pair with origin
classification `A` or `B` (any origin quantity) and a qualifying
destination. -/
def forwardUncappedSpec (data : List Row) (classCols : String → Option String)
    (o oc : String) (dests : List String) : List Sug :=
  (data.filter (fun r => isAB (pyStrip (r.cell oc)))).flatMap (fun r =>
    (dests.filter (fun d => forwardPairOK classCols r d)).map (fun d =>
      mkSug r o (r.qty o) (pyStrip (r.cell oc)) d (r.qty d)
        (destClas classCols r d)))

lemma sugLeb_trans (a b c : Sug) (hab : sugLeb a b = true)
    (hbc : sugLeb b c = true) : sugLeb a c = true := by
  simp only [sugLeb, Bool.or_eq_true, Bool.and_eq_true, decide_eq_true_eq]
    at hab hbc ⊢
  rcases hab with h | ⟨he, hk⟩ <;> rcases hbc with h' | ⟨he', hk'⟩
  · exact Or.inl (by omega)
  · exact Or.inl (by omega)
  · exact Or.inl (by omega)
  · exact Or.inr ⟨by omega, hk.trans hk'⟩

lemma sugLeb_total (a b : Sug) : (sugLeb a b || sugLeb b a) = true := by
  simp only [sugLeb, Bool.or_eq_true, Bool.and_eq_true, decide_eq_true_eq]
  rcases lt_trichotomy a.existenciaDestino b.existenciaDestino with h | h | h
  · exact Or.inr (Or.inl h)
  · rcases le_total a.clave.data b.clave.data with hk | hk
    · exact Or.inl (Or.inr ⟨h, hk⟩)
    · exact Or.inr (Or.inr ⟨h.symm, hk⟩)
  · exact Or.inl (Or.inl h)

lemma sugDestLoop_eq (classCols : String → Option String) (o : String)
    (eo : Int) (co : String) (r : Row) (dests : List String)
    (h : ∀ d ∈ dests, (classCols d).isSome) :
    sugDestLoop classCols o eo co r dests =
      .ok ((dests.filter (fun d => forwardPairOK classCols r d)).map (fun d =>
        mkSug r o eo co d (r.qty d) (destClas classCols r d))) := by
  induction dests with
  | nil => rfl
  | cons d rest ih =>
    obtain ⟨c, hc⟩ := Option.isSome_iff_exists.mp (h d (List.mem_cons_self d rest))
    have hdc : destClas classCols r d = pyStrip (r.cell c) := by
      simp [destClas, hc]
    rw [List.filter_cons]
    simp only [sugDestLoop, classCell, hc,
      ih (fun x hx => h x (List.mem_cons_of_mem d hx))]
    by_cases h1 : r.qty d ≤ 0
    · have hp : forwardPairOK classCols r d = false := by
        simp only [forwardPairOK, Bool.and_eq_false_iff, decide_eq_false_iff_not]
        exact Or.inl (by omega)
      simp [h1, hp]
    · by_cases h2 : pyStrip (r.cell c) = "C" ∨ containsSin (pyStrip (r.cell c))
      · have hp : forwardPairOK classCols r d = true := by
          simp only [forwardPairOK, Bool.and_eq_true, Bool.or_eq_true,
            decide_eq_true_eq, hdc]
          exact ⟨by omega, by simpa using h2⟩
        simp [h1, h2, hp, hdc, mkSug]
      · have hp : forwardPairOK classCols r d = false := by
          simp only [forwardPairOK, Bool.and_eq_false_iff, Bool.or_eq_false_iff,
            decide_eq_false_iff_not, hdc]
          exact Or.inr ⟨fun hx => h2 (Or.inl hx), by
            simpa using fun hx => h2 (Or.inr hx)⟩
        simp [h1, h2, hp]

lemma sugRowLoop_eq (classCols : String → Option String) (o oc : String)
    (dests : List String) (rows : List Row)
    (h : ∀ d ∈ dests, (classCols d).isSome) :
    sugRowLoop classCols o oc dests rows =
      .ok (rows.flatMap (fun r =>
        (dests.filter (fun d => forwardPairOK classCols r d)).map (fun d =>
          mkSug r o (r.qty o) (pyStrip (r.cell oc)) d (r.qty d)
            (destClas classCols r d)))) := by
  induction rows with
  | nil => rfl
  | cons r rest ih =>
    simp only [sugRowLoop, sugDestLoop_eq classCols o (r.qty o)
      (pyStrip (r.cell oc)) r dests h, ih, List.flatMap_cons]

/-- C1: for every dataset, origin warehouse (with a classification
column) and destination set (all with classification columns), the
forward/uncapped suggestion operation emits one record per
(inventory record, destination) pair exactly when the origin
classification is A or B (regardless of origin quantity) and the
destination quantity is `> 0` and the destination classification is C
or the no-movement marker; the output is a permutation of that full
set (no row cap), sorted by destination quantity descending with ties
broken by Key ascending. -/
theorem build_suggestions_correct (data : List Row)
    (classCols : String → Option String) (o oc : String)
    (dests : List String) (h1 : classCols o = some oc)
    (h2 : ∀ d ∈ dests, (classCols d).isSome) :
    ∃ l, build_suggestions data classCols o dests = .ok l ∧
      l.Perm (forwardUncappedSpec data classCols o oc dests) ∧
      l.Pairwise sugOrden := by
  refine ⟨((data.filter (fun r => isAB (pyStrip (r.cell oc)))).flatMap (fun r =>
    (dests.filter (fun d => forwardPairOK classCols r d)).map (fun d =>
      mkSug r o (r.qty o) (pyStrip (r.cell oc)) d (r.qty d)
        (destClas classCols r d)))).mergeSort sugLeb, ?_, ?_, ?_⟩
  · simp only [build_suggestions, h1, sugRowLoop_eq classCols o oc dests _ h2,
      Except.map]
  · exact List.mergeSort_perm _ _
  · refine (List.sorted_mergeSort sugLeb_trans sugLeb_total
      _).imp ?_
    intro a b hab
    simpa only [sugOrden, sugLeb, Bool.or_eq_true, Bool.and_eq_true,
      decide_eq_true_eq] using hab

/-- Comparison used to model
`sort_values(by=["Existencia origen", "Clave"], ascending=[False, True])`
in `build_reverse_suggestions`: origin quantity descending, then Key
ascending. -/
def revLeb (a b : Sug) : Bool :=
  decide (b.existenciaOrigen < a.existenciaOrigen) ||
    (decide (a.existenciaOrigen = b.existenciaOrigen) &&
      decide (a.clave.data ≤ b.clave.data))

/-- The order of `revLeb` as a proposition: origin quantity descending,
ties broken by Key ascending. -/
def revOrden (a b : Sug) : Prop :=
  b.existenciaOrigen < a.existenciaOrigen ∨
    (a.existenciaOrigen = b.existenciaOrigen ∧ a.clave.data ≤ b.clave.data)

/-- Inner destination loop of `build_reverse_suggestions`: reads
`exist_d` and `clas_d` (raising when the destination has no
classification column) and keeps the pair iff `clas_d` is `A` or `B`
(any destination quantity). -/
def revDestLoop (classCols : String → Option String) (o : String)
    (existO : Int) (clasO : String) (r : Row) :
    List String → Except Unit (List Sug)
  | [] => .ok []
  | d :: rest =>
    match classCell classCols r d with
    | .error e => .error e
    | .ok cellv =>
      let existD := r.qty d
      let clasD := pyStrip cellv
      match revDestLoop classCols o existO clasO r rest with
      | .error e => .error e
      | .ok tail =>
        if clasD = "A" ∨ clasD = "B" then
          .ok (mkSug r o existO clasO d existD clasD :: tail)
        else .ok tail

/-- Outer row loop of `build_reverse_suggestions`, over the rows that
already passed the origin filter. -/
def revRowLoop (classCols : String → Option String) (o oc : String)
    (dests : List String) : List Row → Except Unit (List Sug)
  | [] => .ok []
  | r :: rest =>
    match revDestLoop classCols o (r.qty o) (pyStrip (r.cell oc)) r dests with
    | .error e => .error e
    | .ok recs =>
      match revRowLoop classCols o oc dests rest with
      | .error e => .error e
      | .ok tail => .ok (recs ++ tail)

/-- Python `(exist > 0) & (clas == "C" | "sin" in clas.lower())`: the
origin filter of `build_reverse_suggestions` and the row filter of
`get_base_c_sinmov`. -/
def isCSinPos (clas : String) (exist : Int) : Bool :=
  decide (0 < exist) && (decide (clas = "C") || containsSin clas)

/-- `build_reverse_suggestions(data, inv_cols, class_cols,
origin_inv_col, dest_inv_cols, umbral_bajos_ab)` from `app.py`: origin
filter classification `C` or no-movement with quantity `> 0`,
destination filter classification `A`/`B` regardless of quantity,
result sorted by origin quantity descending then Key ascending.  When
`class_cols[origin_inv_col]` is `None` the column access raises. -/
def build_reverse_suggestions (data : List Row)
    (classCols : String → Option String) (origin_inv_col : String)
    (dest_inv_cols : List String) : Except Unit (List Sug) :=
  match classCols origin_inv_col with
  | none => .error ()
  | some oc =>
    let filtered := data.filter (fun r =>
      isCSinPos (pyStrip (r.cell oc)) (r.qty origin_inv_col))
    (revRowLoop classCols origin_inv_col oc dest_inv_cols filtered).map
      (fun recs => recs.mergeSort revLeb)

/-- The reverse inclusion rule for a destination exactly as the
specification states it: destination classification `A` or `B`, any
destination quantity. -/
def reversePairOK (classCols : String → Option String) (r : Row) (d : String) :
    Bool :=
  isAB (destClas classCols r d)

/-- The reverse result set as the specification describes it: one
record per (inventory record, destination) pair with origin
classification `C` or no-movement and origin quantity `> 0`, and a
destination classified `A`/`B` (any quantity, including 0). -/
def reverseSpec (data : List Row) (classCols : String → Option String)
    (o oc : String) (dests : List String) : List Sug :=
  (data.filter (fun r => isCSinPos (pyStrip (r.cell oc)) (r.qty o))).flatMap
    (fun r => (dests.filter (fun d => reversePairOK classCols r d)).map (fun d =>
      mkSug r o (r.qty o) (pyStrip (r.cell oc)) d (r.qty d)
        (destClas classCols r d)))

lemma revLeb_trans (a b c : Sug) (hab : revLeb a b = true)
    (hbc : revLeb b c = true) : revLeb a c = true := by
  simp only [revLeb, Bool.or_eq_true, Bool.and_eq_true, decide_eq_true_eq]
    at hab hbc ⊢
  rcases hab with h | ⟨he, hk⟩ <;> rcases hbc with h' | ⟨he', hk'⟩
  · exact Or.inl (by omega)
  · exact Or.inl (by omega)
  · exact Or.inl (by omega)
  · exact Or.inr ⟨by omega, hk.trans hk'⟩

lemma revLeb_total (a b : Sug) : (revLeb a b || revLeb b a) = true := by
  simp only [revLeb, Bool.or_eq_true, Bool.and_eq_true, decide_eq_true_eq]
  rcases lt_trichotomy a.existenciaOrigen b.existenciaOrigen with h | h | h
  · exact Or.inr (Or.inl h)
  · rcases le_total a.clave.data b.clave.data with hk | hk
    · exact Or.inl (Or.inr ⟨h, hk⟩)
    · exact Or.inr (Or.inr ⟨h.symm, hk⟩)
  · exact Or.inl (Or.inl h)

lemma revDestLoop_eq (classCols : String → Option String) (o : String)
    (eo : Int) (co : String) (r : Row) (dests : List String)
    (h : ∀ d ∈ dests, (classCols d).isSome) :
    revDestLoop classCols o eo co r dests =
      .ok ((dests.filter (fun d => reversePairOK classCols r d)).map (fun d =>
        mkSug r o eo co d (r.qty d) (destClas classCols r d))) := by
  induction dests with
  | nil => rfl
  | cons d rest ih =>
    obtain ⟨c, hc⟩ := Option.isSome_iff_exists.mp (h d (List.mem_cons_self d rest))
    have hdc : destClas classCols r d = pyStrip (r.cell c) := by
      simp [destClas, hc]
    rw [List.filter_cons]
    simp only [revDestLoop, classCell, hc,
      ih (fun x hx => h x (List.mem_cons_of_mem d hx))]
    by_cases h2 : pyStrip (r.cell c) = "A" ∨ pyStrip (r.cell c) = "B"
    · have hp : reversePairOK classCols r d = true := by
        simp only [reversePairOK, isAB, Bool.or_eq_true, decide_eq_true_eq, hdc]
        exact h2
      simp [h2, hp, hdc, mkSug]
    · have hp : reversePairOK classCols r d = false := by
        simp only [reversePairOK, isAB, Bool.or_eq_false_iff,
          decide_eq_false_iff_not, hdc]
        exact ⟨fun hx => h2 (Or.inl hx), fun hx => h2 (Or.inr hx)⟩
      simp [h2, hp]

lemma revRowLoop_eq (classCols : String → Option String) (o oc : String)
    (dests : List String) (rows : List Row)
    (h : ∀ d ∈ dests, (classCols d).isSome) :
    revRowLoop classCols o oc dests rows =
      .ok (rows.flatMap (fun r =>
        (dests.filter (fun d => reversePairOK classCols r d)).map (fun d =>
          mkSug r o (r.qty o) (pyStrip (r.cell oc)) d (r.qty d)
            (destClas classCols r d)))) := by
  induction rows with
  | nil => rfl
  | cons r rest ih =>
    simp only [revRowLoop, revDestLoop_eq classCols o (r.qty o)
      (pyStrip (r.cell oc)) r dests h, ih, List.flatMap_cons]

/-- C5: for every dataset, origin warehouse (with a classification
column) and destination set (all with classification columns), the
reverse suggestion operation emits one record per (inventory record,
destination) pair exactly when the origin classification is C or
no-movement AND the origin quantity is `> 0`, and the destination
classification is A or B regardless of destination quantity (including
0); the output is a permutation of that full set (no cap), sorted by
origin quantity descending with ties broken by Key ascending. -/
theorem build_reverse_suggestions_correct (data : List Row)
    (classCols : String → Option String) (o oc : String)
    (dests : List String) (h1 : classCols o = some oc)
    (h2 : ∀ d ∈ dests, (classCols d).isSome) :
    ∃ l, build_reverse_suggestions data classCols o dests = .ok l ∧
      l.Perm (reverseSpec data classCols o oc dests) ∧
      l.Pairwise revOrden := by
  refine ⟨((data.filter (fun r =>
    isCSinPos (pyStrip (r.cell oc)) (r.qty o))).flatMap (fun r =>
    (dests.filter (fun d => reversePairOK classCols r d)).map (fun d =>
      mkSug r o (r.qty o) (pyStrip (r.cell oc)) d (r.qty d)
        (destClas classCols r d)))).mergeSort revLeb, ?_, ?_, ?_⟩
  · simp only [build_reverse_suggestions, h1,
      revRowLoop_eq classCols o oc dests _ h2, Except.map]
  · exact List.mergeSort_perm _ _
  · refine (List.sorted_mergeSort revLeb_trans revLeb_total
      _).imp ?_
    intro a b hab
    simpa only [revOrden, revLeb, Bool.or_eq_true, Bool.and_eq_true,
      decide_eq_true_eq] using hab

/-- One row of the origin sub-dataframe produced by `get_origin_df`:
columns `Codigo`, `Clave`, `Descripcion`, `Existencia` (the renamed
inventory column) and `Clasificacion` (the renamed classification
column). -/
structure OriginRow where
  codigo : String
  clave : String
  descripcion : String
  existencia : Int
  clasificacion : String
deriving DecidableEq

/-- `get_origin_df(data, inv_col, class_col)` from `app.py`: select and
rename the base columns plus the warehouse pair.  When `class_col` is
`None` the column selection raises `KeyError`. -/
def get_origin_df (data : List Row) (inv_col : String)
    (class_col : Option String) : Except Unit (List OriginRow) :=
  match class_col with
  | none => .error ()
  | some c => .ok (data.map (fun r =>
      ⟨r.codigo, r.clave, r.descripcion, r.qty inv_col, r.cell c⟩))

/-- pandas `Series.nunique()` on a string column: the number of
distinct values. -/
def nunique (l : List String) : Nat := l.dedup.length

/-- Lines 146–148 of `app.py`: `compute_kpis` re-coerces `Existencia`
(already an integer here) and normalizes `Clasificacion` with
`fillna("").astype(str).str.strip()`. -/
def normRow (r : OriginRow) : OriginRow :=
  { r with clasificacion := pyStrip r.clasificacion }

/-- The dictionary returned by `compute_kpis`. -/
structure KPI where
  skus_totales : Nat
  skus_activos : Nat
  bajos_ab : Nat
  A : Nat
  B : Nat
  C : Nat
  SinMov : Nat
  pct_A : ℚ
  pct_B : ℚ
  pct_C : ℚ
  pct_SinMov : ℚ
deriving DecidableEq

/-- `compute_kpis(df_origin, umbral_bajos_ab)` from `app.py`
(the threshold argument is a dummy in this application variant and is
never read): distinct-key counts per classification mask, the
no-movement count restricted to quantity `> 0`, actives as the sum of
the four counts, low A/B as the distinct A/B keys at quantity exactly
0, and percentages over the actives with a zero guard. -/
def compute_kpis (df_origin : List OriginRow) (umbral_bajos_ab : Int) : KPI :=
  let df := df_origin.map normRow
  let skus_totales := nunique (df.map (·.clave))
  let conteo_A := nunique ((df.filter (fun r =>
    decide (r.clasificacion = "A"))).map (·.clave))
  let conteo_B := nunique ((df.filter (fun r =>
    decide (r.clasificacion = "B"))).map (·.clave))
  let conteo_C := nunique ((df.filter (fun r =>
    decide (r.clasificacion = "C"))).map (·.clave))
  let conteo_sinmov := nunique ((df.filter (fun r =>
    containsSin r.clasificacion && decide (0 < r.existencia))).map (·.clave))
  let skus_activos := conteo_A + conteo_B + conteo_C + conteo_sinmov
  let bajos_ab := nunique ((df.filter (fun r =>
    (decide (r.clasificacion = "A") || decide (r.clasificacion = "B")) &&
      decide (r.existencia = 0))).map (·.clave))
  let pct := fun (v : Nat) =>
    if skus_activos = 0 then (0 : ℚ) else (v : ℚ) / (skus_activos : ℚ)
  { skus_totales := skus_totales, skus_activos := skus_activos,
    bajos_ab := bajos_ab, A := conteo_A, B := conteo_B, C := conteo_C,
    SinMov := conteo_sinmov, pct_A := pct conteo_A, pct_B := pct conteo_B,
    pct_C := pct conteo_C, pct_SinMov := pct conteo_sinmov }

/-- The set of distinct `Key` values among the rows satisfying `p`
(the specification's "count of distinct SKU keys whose ..."). -/
def keysWith (rows : List OriginRow) (p : OriginRow → Bool) : Finset String :=
  ((rows.filter p).map (·.clave)).toFinset

lemma norm_filter_map_clave (rows : List OriginRow) (p : OriginRow → Bool) :
    ((rows.map normRow).filter p).map (·.clave) =
      (rows.filter (fun r => p (normRow r))).map (·.clave) := by
  rw [List.filter_map, List.map_map]
  rfl

lemma nunique_eq_keysWith (rows : List OriginRow) (p : OriginRow → Bool) :
    nunique (((rows.map normRow).filter p).map (·.clave)) =
      (keysWith rows (fun r => p (normRow r))).card := by
  rw [norm_filter_map_clave, keysWith, List.card_toFinset]
  rfl

lemma compute_kpis_totales_def (rows : List OriginRow) (u : Int) :
    (compute_kpis rows u).skus_totales =
      nunique ((rows.map normRow).map (·.clave)) := rfl

lemma compute_kpis_A_def (rows : List OriginRow) (u : Int) :
    (compute_kpis rows u).A = nunique (((rows.map normRow).filter (fun r =>
      decide (r.clasificacion = "A"))).map (·.clave)) := rfl

lemma compute_kpis_B_def (rows : List OriginRow) (u : Int) :
    (compute_kpis rows u).B = nunique (((rows.map normRow).filter (fun r =>
      decide (r.clasificacion = "B"))).map (·.clave)) := rfl

lemma compute_kpis_C_def (rows : List OriginRow) (u : Int) :
    (compute_kpis rows u).C = nunique (((rows.map normRow).filter (fun r =>
      decide (r.clasificacion = "C"))).map (·.clave)) := rfl

lemma compute_kpis_SinMov_def (rows : List OriginRow) (u : Int) :
    (compute_kpis rows u).SinMov = nunique (((rows.map normRow).filter (fun r =>
      containsSin r.clasificacion && decide (0 < r.existencia))).map (·.clave)) :=
  rfl

lemma compute_kpis_bajos_def (rows : List OriginRow) (u : Int) :
    (compute_kpis rows u).bajos_ab =
      nunique (((rows.map normRow).filter (fun r =>
        (decide (r.clasificacion = "A") || decide (r.clasificacion = "B")) &&
          decide (r.existencia = 0))).map (·.clave)) := rfl

lemma compute_kpis_activos_def (rows : List OriginRow) (u : Int) :
    (compute_kpis rows u).skus_activos = (compute_kpis rows u).A +
      (compute_kpis rows u).B + (compute_kpis rows u).C +
      (compute_kpis rows u).SinMov := rfl

/-- C3: the A/B/C KPI counters each count the distinct Key values whose
(stripped) classification exactly equals that tag, with no condition on
the quantity; the no-movement counter counts the distinct Key values
classified no-movement AND having quantity `> 0`. -/
theorem compute_kpis_category_counts (rows : List OriginRow) (u : Int) :
    (compute_kpis rows u).A = (keysWith rows (fun r =>
      decide (pyStrip r.clasificacion = "A"))).card ∧
    (compute_kpis rows u).B = (keysWith rows (fun r =>
      decide (pyStrip r.clasificacion = "B"))).card ∧
    (compute_kpis rows u).C = (keysWith rows (fun r =>
      decide (pyStrip r.clasificacion = "C"))).card ∧
    (compute_kpis rows u).SinMov = (keysWith rows (fun r =>
      containsSin (pyStrip r.clasificacion) && decide (0 < r.existencia))).card := by
  exact ⟨nunique_eq_keysWith rows (fun r => decide (r.clasificacion = "A")),
    nunique_eq_keysWith rows (fun r => decide (r.clasificacion = "B")),
    nunique_eq_keysWith rows (fun r => decide (r.clasificacion = "C")),
    nunique_eq_keysWith rows (fun r =>
      containsSin r.clasificacion && decide (0 < r.existencia))⟩

/-- C4: for every input dataset the KPI result satisfies
`skus_activos = A + B + C + SinMov`, and every percentage field equals
its count divided by `skus_activos`, or `0` when `skus_activos = 0`
(the division is guarded, never performed at zero). -/
theorem compute_kpis_active_and_pct (rows : List OriginRow) (u : Int) :
    (compute_kpis rows u).skus_activos = (compute_kpis rows u).A +
      (compute_kpis rows u).B + (compute_kpis rows u).C +
      (compute_kpis rows u).SinMov ∧
    (compute_kpis rows u).pct_A = (if (compute_kpis rows u).skus_activos = 0
      then 0 else ((compute_kpis rows u).A : ℚ) /
        ((compute_kpis rows u).skus_activos : ℚ)) ∧
    (compute_kpis rows u).pct_B = (if (compute_kpis rows u).skus_activos = 0
      then 0 else ((compute_kpis rows u).B : ℚ) /
        ((compute_kpis rows u).skus_activos : ℚ)) ∧
    (compute_kpis rows u).pct_C = (if (compute_kpis rows u).skus_activos = 0
      then 0 else ((compute_kpis rows u).C : ℚ) /
        ((compute_kpis rows u).skus_activos : ℚ)) ∧
    (compute_kpis rows u).pct_SinMov =
      (if (compute_kpis rows u).skus_activos = 0
      then 0 else ((compute_kpis rows u).SinMov : ℚ) /
        ((compute_kpis rows u).skus_activos : ℚ)) :=
  ⟨rfl, rfl, rfl, rfl, rfl⟩

lemma nunique_cons_cons (c : String) (l : List String) :
    nunique (c :: c :: l) = nunique (c :: l) :=
  congrArg List.length (List.dedup_cons_of_mem (List.mem_cons_self _ _))

lemma nunique_cons_dup (x : OriginRow) (l : List OriginRow)
    (p : OriginRow → Bool) :
    nunique (((x :: x :: l).filter p).map (·.clave)) =
      nunique (((x :: l).filter p).map (·.clave)) := by
  by_cases h : p x = true
  · simp only [List.filter_cons, h, if_true, List.map_cons]
    exact nunique_cons_cons _ _
  · simp [List.filter_cons, h]

/-- C10: every KPI count is over distinct Key values — a duplicated row
never changes any counter — while a Key whose rows carry different
classifications is counted once in each matching category, so
`skus_activos` can exceed `skus_totales` (shown on a dataset where one
Key is classified both A and B). -/
theorem compute_kpis_distinct_keys :
    (∀ (r : OriginRow) (rows : List OriginRow) (u : Int),
      (compute_kpis (r :: r :: rows) u).skus_totales =
        (compute_kpis (r :: rows) u).skus_totales ∧
      (compute_kpis (r :: r :: rows) u).A = (compute_kpis (r :: rows) u).A ∧
      (compute_kpis (r :: r :: rows) u).B = (compute_kpis (r :: rows) u).B ∧
      (compute_kpis (r :: r :: rows) u).C = (compute_kpis (r :: rows) u).C ∧
      (compute_kpis (r :: r :: rows) u).SinMov =
        (compute_kpis (r :: rows) u).SinMov ∧
      (compute_kpis (r :: r :: rows) u).bajos_ab =
        (compute_kpis (r :: rows) u).bajos_ab ∧
      (compute_kpis (r :: r :: rows) u).skus_activos =
        (compute_kpis (r :: rows) u).skus_activos) ∧
    ((compute_kpis [⟨"1", "X", "d", 0, "A"⟩, ⟨"2", "X", "d", 5, "B"⟩] 0).A = 1 ∧
     (compute_kpis [⟨"1", "X", "d", 0, "A"⟩, ⟨"2", "X", "d", 5, "B"⟩] 0).B = 1 ∧
     (compute_kpis [⟨"1", "X", "d", 0, "A"⟩, ⟨"2", "X", "d", 5, "B"⟩] 0).skus_totales = 1 ∧
     (compute_kpis [⟨"1", "X", "d", 0, "A"⟩, ⟨"2", "X", "d", 5, "B"⟩] 0).skus_totales <
       (compute_kpis [⟨"1", "X", "d", 0, "A"⟩, ⟨"2", "X", "d", 5, "B"⟩] 0).skus_activos) := by
  constructor
  · intro r rows u
    have hmap : (r :: r :: rows).map normRow =
        normRow r :: normRow r :: rows.map normRow := rfl
    have hmap' : (r :: rows).map normRow = normRow r :: rows.map normRow := rfl
    have hT : (compute_kpis (r :: r :: rows) u).skus_totales =
        (compute_kpis (r :: rows) u).skus_totales := by
      rw [compute_kpis_totales_def, compute_kpis_totales_def, hmap, hmap']
      exact nunique_cons_cons _ _
    have hA : (compute_kpis (r :: r :: rows) u).A =
        (compute_kpis (r :: rows) u).A := by
      rw [compute_kpis_A_def, compute_kpis_A_def, hmap, hmap']
      exact nunique_cons_dup _ _ _
    have hB : (compute_kpis (r :: r :: rows) u).B =
        (compute_kpis (r :: rows) u).B := by
      rw [compute_kpis_B_def, compute_kpis_B_def, hmap, hmap']
      exact nunique_cons_dup _ _ _
    have hC : (compute_kpis (r :: r :: rows) u).C =
        (compute_kpis (r :: rows) u).C := by
      rw [compute_kpis_C_def, compute_kpis_C_def, hmap, hmap']
      exact nunique_cons_dup _ _ _
    have hS : (compute_kpis (r :: r :: rows) u).SinMov =
        (compute_kpis (r :: rows) u).SinMov := by
      rw [compute_kpis_SinMov_def, compute_kpis_SinMov_def, hmap, hmap']
      exact nunique_cons_dup _ _ _
    have hBaj : (compute_kpis (r :: r :: rows) u).bajos_ab =
        (compute_kpis (r :: rows) u).bajos_ab := by
      rw [compute_kpis_bajos_def, compute_kpis_bajos_def, hmap, hmap']
      exact nunique_cons_dup _ _ _
    refine ⟨hT, hA, hB, hC, hS, hBaj, ?_⟩
    rw [compute_kpis_activos_def, compute_kpis_activos_def, hA, hB, hC, hS]
  · decide

/-- The two suggestion policies of the specification (§4.4, §9): the
application variant in `src/app.py` implements the uncapped policy; the
second, near-duplicate application variant implements the capped one. -/
inductive Policy
  | uncapped
  | capped
deriving DecidableEq

/-- Modelled from the spec: the low-stock A/B KPI of the capped
application variant, which is not under `src/` (only the dummy
threshold `umbral_bajos_ab` remains in `app.py`).  Per §4.3 it counts
the distinct A/B SKU keys with `0 < quantity ≤ threshold`, over the
same normalized origin rows as `compute_kpis`. -/
def bajos_ab_capped (df_origin : List OriginRow) (umbral_bajos_ab : Int) : Nat :=
  let df := df_origin.map normRow
  nunique ((df.filter (fun r =>
    (decide (r.clasificacion = "A") || decide (r.clasificacion = "B")) &&
      (decide (0 < r.existencia) &&
        decide (r.existencia ≤ umbral_bajos_ab)))).map (·.clave))

/-- Modelled from the spec: the `count_low_AB` KPI selected by the
active suggestion policy (§4.3): the uncapped policy uses the
`quantity == 0` counter of `compute_kpis` from `src/app.py`, the capped
policy the `0 < quantity ≤ threshold` counter of the second variant. -/
def count_low_AB (p : Policy) (df_origin : List OriginRow) (umbral : Int) :
    Nat :=
  match p with
  | .uncapped => (compute_kpis df_origin umbral).bajos_ab
  | .capped => bajos_ab_capped df_origin umbral

/-- C6: the low-stock A/B KPI exists in two variants selected by the
active policy — under the uncapped policy it counts the distinct A/B
Key values with quantity exactly 0, and under the capped policy the
distinct A/B Key values with `0 < quantity ≤ threshold`. -/
theorem count_low_AB_variants (rows : List OriginRow) (u : Int) :
    count_low_AB .uncapped rows u = (keysWith rows (fun r =>
      (decide (pyStrip r.clasificacion = "A") ||
        decide (pyStrip r.clasificacion = "B")) &&
        decide (r.existencia = 0))).card ∧
    count_low_AB .capped rows u = (keysWith rows (fun r =>
      (decide (pyStrip r.clasificacion = "A") ||
        decide (pyStrip r.clasificacion = "B")) &&
        (decide (0 < r.existencia) && decide (r.existencia ≤ u)))).card :=
  ⟨nunique_eq_keysWith rows (fun r =>
      (decide (r.clasificacion = "A") || decide (r.clasificacion = "B")) &&
        decide (r.existencia = 0)),
    nunique_eq_keysWith rows (fun r =>
      (decide (r.clasificacion = "A") || decide (r.clasificacion = "B")) &&
        (decide (0 < r.existencia) && decide (r.existencia ≤ u)))⟩

/-- The seven counters accumulated by the `origen_sel == "Todos"`
branch of `app.py` (`total = {...}` at lines 642–650). -/
structure KpiTotals where
  skus_totales : Nat
  skus_activos : Nat
  bajos_ab : Nat
  A : Nat
  B : Nat
  C : Nat
  SinMov : Nat
deriving DecidableEq

/-- The loop `for inv in inv_cols: ... total[key] += k[key]` of the
"Todos" branch: per-warehouse KPI dictionaries summed field-by-field.
Raises when some warehouse has no classification column (the
`get_origin_df` column selection fails). -/
def kpisTotalsLoop (data : List Row) (classCols : String → Option String)
    (umbral : Int) : List String → Except Unit KpiTotals
  | [] => .ok ⟨0, 0, 0, 0, 0, 0, 0⟩
  | w :: rest =>
    match get_origin_df data w (classCols w) with
    | .error e => .error e
    | .ok dfo =>
      let k := compute_kpis dfo umbral
      match kpisTotalsLoop data classCols umbral rest with
      | .error e => .error e
      | .ok t => .ok ⟨t.skus_totales + k.skus_totales,
          t.skus_activos + k.skus_activos, t.bajos_ab + k.bajos_ab,
          t.A + k.A, t.B + k.B, t.C + k.C, t.SinMov + k.SinMov⟩

/-- The `origen_sel == "Todos"` branch computing `kpis_to_show` in
`app.py`: the summed counters, with percentages taken over the summed
`skus_activos` under the same zero guard as the per-warehouse case. -/
def kpis_to_show_todos (data : List Row) (invCols : List String)
    (classCols : String → Option String) (umbral : Int) :
    Except Unit KPI :=
  match kpisTotalsLoop data classCols umbral invCols with
  | .error e => .error e
  | .ok t =>
    let pct := fun (v : Nat) =>
      if t.skus_activos = 0 then (0 : ℚ) else (v : ℚ) / (t.skus_activos : ℚ)
    .ok ⟨t.skus_totales, t.skus_activos, t.bajos_ab, t.A, t.B, t.C,
      t.SinMov, pct t.A, pct t.B, pct t.C, pct t.SinMov⟩

/-- The per-warehouse KPI dictionary of warehouse `w` with
classification column `c`, as computed by the "Todos" loop body. -/
def perWarehouseKpi (data : List Row) (w c : String) (umbral : Int) : KPI :=
  compute_kpis (data.map (fun r =>
    ⟨r.codigo, r.clave, r.descripcion, r.qty w, r.cell c⟩)) umbral

lemma kpisTotalsLoop_eq (data : List Row)
    (classCols : String → Option String) (cc : String → String) (u : Int)
    (invCols : List String) (h : ∀ w ∈ invCols, classCols w = some (cc w)) :
    kpisTotalsLoop data classCols u invCols = .ok
      ⟨(invCols.map (fun w => (perWarehouseKpi data w (cc w) u).skus_totales)).sum,
       (invCols.map (fun w => (perWarehouseKpi data w (cc w) u).skus_activos)).sum,
       (invCols.map (fun w => (perWarehouseKpi data w (cc w) u).bajos_ab)).sum,
       (invCols.map (fun w => (perWarehouseKpi data w (cc w) u).A)).sum,
       (invCols.map (fun w => (perWarehouseKpi data w (cc w) u).B)).sum,
       (invCols.map (fun w => (perWarehouseKpi data w (cc w) u).C)).sum,
       (invCols.map (fun w => (perWarehouseKpi data w (cc w) u).SinMov)).sum⟩ := by
  induction invCols with
  | nil => rfl
  | cons w rest ih =>
    have hw := h w (List.mem_cons_self w rest)
    have hrest := ih (fun x hx => h x (List.mem_cons_of_mem w hx))
    simp only [kpisTotalsLoop, hw, get_origin_df, hrest, List.map_cons,
      List.sum_cons, perWarehouseKpi]
    refine congrArg Except.ok ?_
    simp only [KpiTotals.mk.injEq]
    refine ⟨?_, ?_, ?_, ?_, ?_, ?_, ?_⟩ <;> omega

/-- C8: in the "all warehouses" KPI mode every counter equals the
field-by-field sum of the per-warehouse KPI results (so a SKU active in
N warehouses contributes N to the aggregate `skus_activos`), and the
percentages are taken over the summed counts with the same zero
guard. -/
theorem kpis_to_show_todos_sums (data : List Row) (invCols : List String)
    (classCols : String → Option String) (cc : String → String) (u : Int)
    (h : ∀ w ∈ invCols, classCols w = some (cc w)) :
    ∃ t, kpis_to_show_todos data invCols classCols u = .ok t ∧
      t.skus_totales = (invCols.map (fun w =>
        (perWarehouseKpi data w (cc w) u).skus_totales)).sum ∧
      t.skus_activos = (invCols.map (fun w =>
        (perWarehouseKpi data w (cc w) u).skus_activos)).sum ∧
      t.bajos_ab = (invCols.map (fun w =>
        (perWarehouseKpi data w (cc w) u).bajos_ab)).sum ∧
      t.A = (invCols.map (fun w => (perWarehouseKpi data w (cc w) u).A)).sum ∧
      t.B = (invCols.map (fun w => (perWarehouseKpi data w (cc w) u).B)).sum ∧
      t.C = (invCols.map (fun w => (perWarehouseKpi data w (cc w) u).C)).sum ∧
      t.SinMov = (invCols.map (fun w =>
        (perWarehouseKpi data w (cc w) u).SinMov)).sum ∧
      t.pct_A = (if t.skus_activos = 0 then 0
        else (t.A : ℚ) / (t.skus_activos : ℚ)) ∧
      t.pct_B = (if t.skus_activos = 0 then 0
        else (t.B : ℚ) / (t.skus_activos : ℚ)) ∧
      t.pct_C = (if t.skus_activos = 0 then 0
        else (t.C : ℚ) / (t.skus_activos : ℚ)) ∧
      t.pct_SinMov = (if t.skus_activos = 0 then 0
        else (t.SinMov : ℚ) / (t.skus_activos : ℚ)) := by
  simp only [kpis_to_show_todos, kpisTotalsLoop_eq data classCols cc u invCols h]
  exact ⟨_, rfl, rfl, rfl, rfl, rfl, rfl, rfl, rfl, rfl, rfl, rfl, rfl⟩

/-- A serialized CSV field of the suggestion table: pandas `to_csv`
writes either a text column or an integer column. -/
inductive Cell
  | str : String → Cell
  | int : Int → Cell
deriving DecidableEq

/-- One serialized CSV line of a suggestion record (the nine columns of
the `registros` dict, in order). -/
def sugToCells (s : Sug) : List Cell :=
  [.str s.codigo, .str s.clave, .str s.descripcion, .str s.almacenOrigen,
   .int s.existenciaOrigen, .str s.clasifOrigen, .str s.almacenDestino,
   .int s.existenciaDestino, .str s.clasifDestino]

/-- `df_sug.to_csv(index=False)` modeled at row granularity: one
serialized line per row of the full table (the header line is not
modeled; `length` below counts data rows). -/
def to_csv (df : List Sug) : List (List Cell) :=
  df.map sugToCells

/-- Re-parsing one serialized CSV line. -/
def cellsToSug : List Cell → Option Sug
  | [.str a, .str b, .str c, .str d, .int e, .str f, .str g, .int h, .str i] =>
    some ⟨a, b, c, d, e, f, g, h, i⟩
  | _ => none

/-- Re-parsing a serialized suggestion table. -/
def parse_csv (rows : List (List Cell)) : Option (List Sug) :=
  rows.mapM cellsToSug

/-- The display-only row cap of the result tables (`view_limit = 500`
in `app.py`). -/
def view_limit : Nat := 500

/-- Lines 891–910 of `app.py` (`tab_sugeridos`): the on-screen table is
`df_sug.head(view_limit)` when the result exceeds the cap, while the
downloaded CSV (`csv_sug = df_sug.to_csv(...)`) is built from the full
`df_sug`.  Returns (displayed rows, exported CSV). -/
def tab_sugeridos_render (df_sug : List Sug) : List Sug × List (List Cell) :=
  let df_view := if view_limit < df_sug.length then df_sug.take view_limit
    else df_sug
  (df_view, to_csv df_sug)

lemma parse_to_csv (df : List Sug) : parse_csv (to_csv df) = some df := by
  induction df with
  | nil => rfl
  | cons s rest ih =>
    simp only [to_csv, parse_csv, List.map_cons, List.mapM_cons] at ih ⊢
    rw [show cellsToSug (sugToCells s) = some s from rfl]
    simp only [ih, Option.bind_some]
    rfl

/-- C7: the exported/serialized output of the suggestions tab always
contains the full result set — same row count, and re-parsing recovers
exactly the in-memory rows — while the on-screen view never shows more
than the display-only cap of 500 rows; the cap never affects the
export. -/
theorem tab_sugeridos_export_full (df_sug : List Sug) :
    (tab_sugeridos_render df_sug).2.length = df_sug.length ∧
    parse_csv (tab_sugeridos_render df_sug).2 = some df_sug ∧
    (tab_sugeridos_render df_sug).1.length ≤ view_limit := by
  refine ⟨List.length_map _ _, parse_to_csv df_sug, ?_⟩
  by_cases h : view_limit < df_sug.length
  · simp only [tab_sugeridos_render, if_pos h]
    simp [List.length_take_le view_limit df_sug]
  · simp only [tab_sugeridos_render, if_neg h]
    omega

/-- A capped suggestion record: the nine columns of the forward record
plus the spec's optional `shortfall` and capped-suggested-quantity
fields (§3). -/
structure SugCap where
  codigo : String
  clave : String
  descripcion : String
  almacenOrigen : String
  existenciaOrigen : Int
  clasifOrigen : String
  almacenDestino : String
  existenciaDestino : Int
  clasifDestino : String
  faltante : Int
  sugerido : Int
deriving DecidableEq

/-- Build a capped suggestion record. -/
def mkSugCap (r : Row) (o : String) (existO : Int) (clasO : String)
    (d : String) (existD : Int) (clasD : String)
    (faltante sugerido : Int) : SugCap :=
  ⟨r.codigo, r.clave, r.descripcion, o, existO, clasO, d, existD, clasD,
    faltante, sugerido⟩

/-- Comparison for the capped variant's sort: `suggested` descending,
then Key ascending. -/
def capLeb (a b : SugCap) : Bool :=
  decide (b.sugerido < a.sugerido) ||
    (decide (a.sugerido = b.sugerido) && decide (a.clave.data ≤ b.clave.data))

/-- The order of `capLeb` as a proposition. -/
def capOrden (a b : SugCap) : Prop :=
  b.sugerido < a.sugerido ∨
    (a.sugerido = b.sugerido ∧ a.clave.data ≤ b.clave.data)

/-- `shortfall = max(0, threshold − origin_quantity)` (spec §4.4(b)). -/
def faltanteOf (umbral q : Int) : Int := max 0 (umbral - q)

/-- Modelled from the spec: inner destination loop of the capped
forward variant (§4.4(b)), mirroring the loop shape of
`build_suggestions`: a destination is included iff its quantity is
`> 0` and its classification is C or no-movement; then
`suggested = min(destination_quantity, shortfall)` and rows with
`suggested ≤ 0` are skipped. -/
def capDestLoop (classCols : String → Option String) (o : String)
    (existO faltante : Int) (clasO : String) (r : Row) :
    List String → Except Unit (List SugCap)
  | [] => .ok []
  | d :: rest =>
    match classCell classCols r d with
    | .error e => .error e
    | .ok cellv =>
      let existD := r.qty d
      let clasD := pyStrip cellv
      match capDestLoop classCols o existO faltante clasO r rest with
      | .error e => .error e
      | .ok tail =>
        if existD ≤ 0 then .ok tail
        else if clasD = "C" ∨ containsSin clasD then
          let sugerido := min existD faltante
          if sugerido ≤ 0 then .ok tail
          else .ok (mkSugCap r o existO clasO d existD clasD faltante
            sugerido :: tail)
        else .ok tail

/-- Modelled from the spec: outer row loop of the capped forward
variant (§4.4(b)): compute `shortfall = max(0, threshold −
origin_quantity)` and skip the record entirely when it is 0. -/
def capRowLoop (classCols : String → Option String) (o oc : String)
    (umbral : Int) (dests : List String) : List Row → Except Unit (List SugCap)
  | [] => .ok []
  | r :: rest =>
    let existO := r.qty o
    let faltante := faltanteOf umbral existO
    if faltante = 0 then capRowLoop classCols o oc umbral dests rest
    else
      match capDestLoop classCols o existO faltante (pyStrip (r.cell oc)) r
        dests with
      | .error e => .error e
      | .ok recs =>
        match capRowLoop classCols o oc umbral dests rest with
        | .error e => .error e
        | .ok tail => .ok (recs ++ tail)

/-- Modelled from the spec: the forward/capped (quantity-based)
suggestion operation of the second, near-duplicate application variant,
which is not under `src/` (in `src/app.py` only the dummy threshold
`umbral_bajos_ab = 0` at line 607 remains of it).  Spec §4.4(b): origin
filter classification A/B; skip a record when its shortfall is 0;
destination included iff quantity `> 0` and classification C or
no-movement, with `suggested = min(destination_quantity, shortfall)`
and `suggested ≤ 0` skipped; output sorted by `suggested` descending
then Key ascending and truncated to the top 50 rows. -/
def build_suggestions_capped (data : List Row)
    (classCols : String → Option String) (origin_inv_col : String)
    (dest_inv_cols : List String) (umbral : Int) :
    Except Unit (List SugCap) :=
  match classCols origin_inv_col with
  | none => .error ()
  | some oc =>
    let filtered := data.filter (fun r => isAB (pyStrip (r.cell oc)))
    (capRowLoop classCols origin_inv_col oc umbral dest_inv_cols filtered).map
      (fun recs => (recs.mergeSort capLeb).take 50)

/-- The capped result set, before sorting and truncation, as the claim
describes it: records with origin classification A/B and positive
shortfall, destinations with quantity `> 0` and classification C or
no-movement, and positive `suggested = min(destination_quantity,
shortfall)`. -/
def forwardCappedSpec (data : List Row) (classCols : String → Option String)
    (o oc : String) (dests : List String) (umbral : Int) : List SugCap :=
  (data.filter (fun r => isAB (pyStrip (r.cell oc)) &&
    decide (0 < faltanteOf umbral (r.qty o)))).flatMap (fun r =>
    (dests.filter (fun d => forwardPairOK classCols r d &&
      decide (0 < min (r.qty d) (faltanteOf umbral (r.qty o))))).map (fun d =>
      mkSugCap r o (r.qty o) (pyStrip (r.cell oc)) d (r.qty d)
        (destClas classCols r d) (faltanteOf umbral (r.qty o))
        (min (r.qty d) (faltanteOf umbral (r.qty o)))))

lemma capLeb_trans (a b c : SugCap) (hab : capLeb a b = true)
    (hbc : capLeb b c = true) : capLeb a c = true := by
  simp only [capLeb, Bool.or_eq_true, Bool.and_eq_true, decide_eq_true_eq]
    at hab hbc ⊢
  rcases hab with h | ⟨he, hk⟩ <;> rcases hbc with h' | ⟨he', hk'⟩
  · exact Or.inl (by omega)
  · exact Or.inl (by omega)
  · exact Or.inl (by omega)
  · exact Or.inr ⟨by omega, hk.trans hk'⟩

lemma capLeb_total (a b : SugCap) : (capLeb a b || capLeb b a) = true := by
  simp only [capLeb, Bool.or_eq_true, Bool.and_eq_true, decide_eq_true_eq]
  rcases lt_trichotomy a.sugerido b.sugerido with h | h | h
  · exact Or.inr (Or.inl h)
  · rcases le_total a.clave.data b.clave.data with hk | hk
    · exact Or.inl (Or.inr ⟨h, hk⟩)
    · exact Or.inr (Or.inr ⟨h.symm, hk⟩)
  · exact Or.inl (Or.inl h)

lemma capDestLoop_eq (classCols : String → Option String) (o : String)
    (eo f : Int) (co : String) (r : Row) (dests : List String)
    (h : ∀ d ∈ dests, (classCols d).isSome) :
    capDestLoop classCols o eo f co r dests =
      .ok ((dests.filter (fun d => forwardPairOK classCols r d &&
        decide (0 < min (r.qty d) f))).map (fun d =>
          mkSugCap r o eo co d (r.qty d) (destClas classCols r d) f
            (min (r.qty d) f))) := by
  induction dests with
  | nil => rfl
  | cons d rest ih =>
    obtain ⟨c, hc⟩ := Option.isSome_iff_exists.mp (h d (List.mem_cons_self d rest))
    have hdc : destClas classCols r d = pyStrip (r.cell c) := by
      simp [destClas, hc]
    rw [List.filter_cons]
    simp only [capDestLoop, classCell, hc,
      ih (fun x hx => h x (List.mem_cons_of_mem d hx))]
    by_cases h1 : r.qty d ≤ 0
    · have hp : (forwardPairOK classCols r d &&
          decide (0 < min (r.qty d) f)) = false := by
        simp only [Bool.and_eq_false_iff, forwardPairOK,
          decide_eq_false_iff_not]
        exact Or.inl (Or.inl (by simpa using by omega))
      rw [hp, if_pos h1]
      simp only [Bool.false_eq_true, if_false]
    · by_cases h2 : pyStrip (r.cell c) = "C" ∨
        containsSin (pyStrip (r.cell c)) = true
      · by_cases h3 : min (r.qty d) f ≤ 0
        · have hp : (forwardPairOK classCols r d &&
              decide (0 < min (r.qty d) f)) = false := by
            simp only [Bool.and_eq_false_iff, decide_eq_false_iff_not]
            exact Or.inr (by omega)
          rw [hp, if_neg h1, if_pos h2, if_pos h3]
          simp only [Bool.false_eq_true, if_false]
        · have hp : (forwardPairOK classCols r d &&
              decide (0 < min (r.qty d) f)) = true := by
            simp only [Bool.and_eq_true, decide_eq_true_eq, forwardPairOK,
              Bool.or_eq_true, hdc]
            exact ⟨⟨by omega, by simpa using h2⟩, by omega⟩
          rw [hp, if_neg h1, if_pos h2, if_neg h3, if_pos rfl,
            List.map_cons, hdc]
      · have hp : (forwardPairOK classCols r d &&
            decide (0 < min (r.qty d) f)) = false := by
          simp only [Bool.and_eq_false_iff, forwardPairOK,
            Bool.and_eq_false_iff, Bool.or_eq_false_iff,
            decide_eq_false_iff_not, hdc]
          exact Or.inl (Or.inr ⟨fun hx => h2 (Or.inl hx),
            Bool.eq_false_iff.mpr (fun hx => h2 (Or.inr hx))⟩)
        rw [hp, if_neg h1, if_neg h2]
        simp only [Bool.false_eq_true, if_false]

lemma capRowLoop_eq (classCols : String → Option String) (o oc : String)
    (u : Int) (dests : List String) (rows : List Row)
    (h : ∀ d ∈ dests, (classCols d).isSome) :
    capRowLoop classCols o oc u dests rows =
      .ok ((rows.filter (fun r =>
        decide (0 < faltanteOf u (r.qty o)))).flatMap (fun r =>
        (dests.filter (fun d => forwardPairOK classCols r d &&
          decide (0 < min (r.qty d) (faltanteOf u (r.qty o))))).map (fun d =>
          mkSugCap r o (r.qty o) (pyStrip (r.cell oc)) d (r.qty d)
            (destClas classCols r d) (faltanteOf u (r.qty o))
            (min (r.qty d) (faltanteOf u (r.qty o)))))) := by
  induction rows with
  | nil => rfl
  | cons r rest ih =>
    have h0 : (0 : Int) ≤ faltanteOf u (r.qty o) := le_max_left 0 _
    rw [List.filter_cons]
    by_cases hf : faltanteOf u (r.qty o) = 0
    · have hdec : decide (0 < faltanteOf u (r.qty o)) = false := by
        simp only [decide_eq_false_iff_not]; omega
      simp only [capRowLoop, hf, if_true, if_pos, hdec, ih,
        Bool.false_eq_true, if_false]
      exact congrArg Except.ok rfl
    · have hdec : decide (0 < faltanteOf u (r.qty o)) = true := by
        simp only [decide_eq_true_eq]; omega
      simp only [capRowLoop, hf, if_false, hdec, if_true,
        capDestLoop_eq classCols o (r.qty o) (faltanteOf u (r.qty o))
          (pyStrip (r.cell oc)) r dests h, ih, List.flatMap_cons]

/-- C2: the forward/capped suggestion operation is a separately
invokable operation which keeps only records with origin classification
A or B whose `shortfall = max(0, threshold − origin_quantity)` is
nonzero, includes a destination only when its quantity is `> 0` and its
classification is C or no-movement with
`suggested = min(destination_quantity, shortfall) > 0`, and returns the
top 50 rows of that set sorted by `suggested` descending with ties
broken by Key ascending. -/
theorem build_suggestions_capped_correct (data : List Row)
    (classCols : String → Option String) (o oc : String)
    (dests : List String) (u : Int) (h1 : classCols o = some oc)
    (h2 : ∀ d ∈ dests, (classCols d).isSome) :
    ∃ m : List SugCap,
      build_suggestions_capped data classCols o dests u = .ok (m.take 50) ∧
      m.Perm (forwardCappedSpec data classCols o oc dests u) ∧
      m.Pairwise capOrden ∧ (m.take 50).length ≤ 50 ∧
      (m.take 50).Pairwise capOrden := by
  have hff : ((data.filter (fun r => isAB (pyStrip (r.cell oc)))).filter
      (fun r => decide (0 < faltanteOf u (r.qty o)))) =
      data.filter (fun r => isAB (pyStrip (r.cell oc)) &&
        decide (0 < faltanteOf u (r.qty o))) := by
    rw [List.filter_filter]
    exact List.filter_congr (fun a _ => Bool.and_comm _ _)
  have hsorted : ((forwardCappedSpec data classCols o oc dests
      u).mergeSort capLeb).Pairwise capOrden := by
    refine (List.sorted_mergeSort capLeb_trans capLeb_total
      _).imp ?_
    intro a b hab
    simpa only [capOrden, capLeb, Bool.or_eq_true, Bool.and_eq_true,
      decide_eq_true_eq] using hab
  refine ⟨(forwardCappedSpec data classCols o oc dests u).mergeSort capLeb,
    ?_, List.mergeSort_perm _ _, hsorted, List.length_take_le _ _,
    List.Pairwise.sublist (List.take_sublist _ _) hsorted⟩
  simp only [build_suggestions_capped, h1,
    capRowLoop_eq classCols o oc u dests _ h2, Except.map]
  rw [show ((data.filter (fun r => isAB (pyStrip (r.cell oc)))).filter
      (fun r => decide (0 < faltanteOf u (r.qty o)))).flatMap (fun r =>
      (dests.filter (fun d => forwardPairOK classCols r d &&
        decide (0 < min (r.qty d) (faltanteOf u (r.qty o))))).map (fun d =>
        mkSugCap r o (r.qty o) (pyStrip (r.cell oc)) d (r.qty d)
          (destClas classCols r d) (faltanteOf u (r.qty o))
          (min (r.qty d) (faltanteOf u (r.qty o))))) =
      forwardCappedSpec data classCols o oc dests u from by
    rw [forwardCappedSpec, ← hff]]

/-- One row of the listing returned by `get_base_c_sinmov` (columns
`Codigo`, `Clave`, `Descripcion`, `Existencia_origen`,
`Clasif_origen`). -/
structure BaseRow where
  codigo : String
  clave : String
  descripcion : String
  existencia_origen : Int
  clasif_origen : String
deriving DecidableEq

/-- Comparison modeling
`sort_values(by=["Clasif_origen", "Clave"])` in `get_base_c_sinmov`:
classification ascending, then Key ascending. -/
def baseLeb (a b : BaseRow) : Bool :=
  decide (a.clasif_origen.data < b.clasif_origen.data) ||
    (decide (a.clasif_origen.data = b.clasif_origen.data) &&
      decide (a.clave.data ≤ b.clave.data))

/-- `get_base_c_sinmov(data, origin_inv_col, class_cols)` from
`app.py`: every SKU of the origin warehouse classified C or no-movement
with quantity `> 0`, unfiltered by destination, sorted by
classification then Key.  When the origin has no classification column
the column selection raises. -/
def get_base_c_sinmov (data : List Row) (origin_inv_col : String)
    (classCols : String → Option String) : Except Unit (List BaseRow) :=
  match classCols origin_inv_col with
  | none => .error ()
  | some oc =>
    .ok (((data.filter (fun r =>
      isCSinPos (pyStrip (r.cell oc)) (r.qty origin_inv_col))).map (fun r =>
      (⟨r.codigo, r.clave, r.descripcion, r.qty origin_inv_col,
        pyStrip (r.cell oc)⟩ : BaseRow))).mergeSort baseLeb)

/-- A schema in which warehouse `"O"` has a classification column and
warehouse `"D"` has none (the `class_cols[inv] = None` case of
`load_balance`). -/
def ccMissingD : String → Option String := fun w =>
  if w = "O" then some "O.1" else none

/-- A row classified `A` at `"O"` (so it passes the forward origin
filter) with positive stock at `"D"`. -/
def rowMissingD : Row :=
  { codigo := "001", clave := "TRU-1", descripcion := "x",
    qty := fun w => if w = "D" then 4 else 0,
    cell := fun c => if c = "O.1" then "A" else "" }

/-- C9 counterexample: with a destination warehouse whose
classification column is absent (mapped to `None` by the schema
resolver) and a record passing the A/B origin filter, the forward
suggestion operation raises (`row[None]`, modeled `.error ()`) instead
of excluding that warehouse from classification-dependent logic. -/
theorem build_suggestions_raises_on_missing_class_col :
    build_suggestions [rowMissingD] ccMissingD "O" ["D"] = .error () := by
  rfl

lemma flatMap_nil_const {α β : Type} (l : List α) :
    l.flatMap (fun _ => ([] : List β)) = [] := by
  induction l with
  | nil => rfl
  | cons a t ih => rw [List.flatMap_cons, ih]; rfl

lemma flatMap_filter_nil {α β γ : Type} (l : List α) (p : α → γ → Bool)
    (f : α → γ → β) :
    l.flatMap (fun r => (([] : List γ).filter (p r)).map (f r)) = [] :=
  flatMap_nil_const l

/-- C9 (amended): an empty destination set yields an empty result — not
an error — for the forward, reverse and capped suggestion operations,
and the base listing succeeds whenever the chosen origin has a
classification column; but a warehouse whose classification column is
absent is not excluded from the suggestion/listing operations: choosing
it as the origin makes all four raise (and choosing it as a destination
raises as soon as a record passes the origin filter, per the
counterexample). -/
theorem suggestion_ops_failure_semantics (data : List Row)
    (classCols : String → Option String) (o oc o' : String) (u : Int)
    (dests : List String) (h : classCols o = some oc)
    (h' : classCols o' = none) :
    build_suggestions data classCols o [] = .ok [] ∧
    build_reverse_suggestions data classCols o [] = .ok [] ∧
    build_suggestions_capped data classCols o [] u = .ok [] ∧
    (∃ l, get_base_c_sinmov data o classCols = .ok l) ∧
    build_suggestions data classCols o' dests = .error () ∧
    build_reverse_suggestions data classCols o' dests = .error () ∧
    build_suggestions_capped data classCols o' dests u = .error () ∧
    get_base_c_sinmov data o' classCols = .error () := by
  have hvac : ∀ d ∈ ([] : List String), (classCols d).isSome := by
    intro d hd; cases hd
  refine ⟨?_, ?_, ?_, ?_, ?_, ?_, ?_, ?_⟩
  · simp only [build_suggestions, h, sugRowLoop_eq classCols o oc [] _ hvac,
      Except.map, flatMap_filter_nil, List.mergeSort_nil]
  · simp only [build_reverse_suggestions, h,
      revRowLoop_eq classCols o oc [] _ hvac, Except.map,
      flatMap_filter_nil, List.mergeSort_nil]
  · simp only [build_suggestions_capped, h,
      capRowLoop_eq classCols o oc u [] _ hvac, Except.map,
      flatMap_filter_nil, List.mergeSort_nil, List.take_nil]
  · simp only [get_base_c_sinmov, h]
    exact ⟨_, rfl⟩
  · simp only [build_suggestions, h']
  · simp only [build_reverse_suggestions, h']
  · simp only [build_suggestions_capped, h']
  · simp only [get_base_c_sinmov, h']

/-- Concrete two-warehouse schema for the witnesses: inventory columns
`"O"` and `"D"` with classification columns `"O.1"` and `"D.1"`. -/
def ccSample : String → Option String := fun w =>
  if w = "O" then some "O.1" else if w = "D" then some "D.1" else none

/-- A concrete record: classification `A` at `"O"` with quantity 0 and
classification `C` at `"D"` with quantity 5. -/
def rowSample : Row :=
  { codigo := "001", clave := "TRU-1", descripcion := "item",
    qty := fun w => if w = "D" then 5 else 0,
    cell := fun c => if c = "O.1" then "A" else
      if c = "D.1" then "C" else "" }

/-- A concrete record: classification `C` at `"O"` with quantity 3 and
classification `B` at `"D"` with quantity 0. -/
def rowSampleRev : Row :=
  { codigo := "002", clave := "TRU-2", descripcion := "item2",
    qty := fun w => if w = "O" then 3 else 0,
    cell := fun c => if c = "O.1" then "C" else
      if c = "D.1" then "B" else "" }

/-- Witness for `build_suggestions_correct` at a concrete dataset with
both hypotheses discharged. -/
theorem build_suggestions_correct_witness :
    (ccSample "O" = some "O.1" ∧ ∀ d ∈ ["D"], (ccSample d).isSome) ∧
      ∃ l, build_suggestions [rowSample] ccSample "O" ["D"] = .ok l ∧
        l.Perm (forwardUncappedSpec [rowSample] ccSample "O" "O.1" ["D"]) ∧
        l.Pairwise sugOrden :=
  ⟨⟨by decide, by decide⟩,
    build_suggestions_correct [rowSample] ccSample "O" "O.1" ["D"]
      (by decide) (by decide)⟩

/-- Witness for `build_reverse_suggestions_correct` at a concrete
dataset with both hypotheses discharged. -/
theorem build_reverse_suggestions_correct_witness :
    (ccSample "O" = some "O.1" ∧ ∀ d ∈ ["D"], (ccSample d).isSome) ∧
      ∃ l, build_reverse_suggestions [rowSampleRev] ccSample "O" ["D"] =
          .ok l ∧
        l.Perm (reverseSpec [rowSampleRev] ccSample "O" "O.1" ["D"]) ∧
        l.Pairwise revOrden :=
  ⟨⟨by decide, by decide⟩,
    build_reverse_suggestions_correct [rowSampleRev] ccSample "O" "O.1" ["D"]
      (by decide) (by decide)⟩

/-- Witness for `build_suggestions_capped_correct` at a concrete
dataset and threshold 10 with both hypotheses discharged. -/
theorem build_suggestions_capped_correct_witness :
    (ccSample "O" = some "O.1" ∧ ∀ d ∈ ["D"], (ccSample d).isSome) ∧
      ∃ m : List SugCap,
        build_suggestions_capped [rowSample] ccSample "O" ["D"] 10 =
          .ok (m.take 50) ∧
        m.Perm (forwardCappedSpec [rowSample] ccSample "O" "O.1" ["D"] 10) ∧
        m.Pairwise capOrden ∧ (m.take 50).length ≤ 50 ∧
        (m.take 50).Pairwise capOrden :=
  ⟨⟨by decide, by decide⟩,
    build_suggestions_capped_correct [rowSample] ccSample "O" "O.1" ["D"] 10
      (by decide) (by decide)⟩

/-- Witness for `kpis_to_show_todos_sums` over the two sample
warehouses with the hypothesis discharged. -/
theorem kpis_to_show_todos_sums_witness :
    (∀ w ∈ ["D", "O"], ccSample w = some (w ++ ".1")) ∧
      ∃ t, kpis_to_show_todos [rowSample] ["D", "O"] ccSample 0 = .ok t ∧
        t.skus_totales = (["D", "O"].map (fun w =>
          (perWarehouseKpi [rowSample] w (w ++ ".1") 0).skus_totales)).sum ∧
        t.skus_activos = (["D", "O"].map (fun w =>
          (perWarehouseKpi [rowSample] w (w ++ ".1") 0).skus_activos)).sum ∧
        t.bajos_ab = (["D", "O"].map (fun w =>
          (perWarehouseKpi [rowSample] w (w ++ ".1") 0).bajos_ab)).sum ∧
        t.A = (["D", "O"].map (fun w =>
          (perWarehouseKpi [rowSample] w (w ++ ".1") 0).A)).sum ∧
        t.B = (["D", "O"].map (fun w =>
          (perWarehouseKpi [rowSample] w (w ++ ".1") 0).B)).sum ∧
        t.C = (["D", "O"].map (fun w =>
          (perWarehouseKpi [rowSample] w (w ++ ".1") 0).C)).sum ∧
        t.SinMov = (["D", "O"].map (fun w =>
          (perWarehouseKpi [rowSample] w (w ++ ".1") 0).SinMov)).sum ∧
        t.pct_A = (if t.skus_activos = 0 then 0
          else (t.A : ℚ) / (t.skus_activos : ℚ)) ∧
        t.pct_B = (if t.skus_activos = 0 then 0
          else (t.B : ℚ) / (t.skus_activos : ℚ)) ∧
        t.pct_C = (if t.skus_activos = 0 then 0
          else (t.C : ℚ) / (t.skus_activos : ℚ)) ∧
        t.pct_SinMov = (if t.skus_activos = 0 then 0
          else (t.SinMov : ℚ) / (t.skus_activos : ℚ)) :=
  ⟨by decide, kpis_to_show_todos_sums [rowSample] ["D", "O"] ccSample
    (fun w => w ++ ".1") 0 (by decide)⟩

/-- Witness for `suggestion_ops_failure_semantics` at a concrete
dataset, with origin `"O"` (classification column present) and `"D"`
(classification column absent). -/
theorem suggestion_ops_failure_semantics_witness :
    (ccMissingD "O" = some "O.1" ∧ ccMissingD "D" = none) ∧
      (build_suggestions [rowMissingD] ccMissingD "O" [] = .ok [] ∧
       build_reverse_suggestions [rowMissingD] ccMissingD "O" [] = .ok [] ∧
       build_suggestions_capped [rowMissingD] ccMissingD "O" [] 7 = .ok [] ∧
       (∃ l, get_base_c_sinmov [rowMissingD] "O" ccMissingD = .ok l) ∧
       build_suggestions [rowMissingD] ccMissingD "D" ["O"] = .error () ∧
       build_reverse_suggestions [rowMissingD] ccMissingD "D" ["O"] =
         .error () ∧
       build_suggestions_capped [rowMissingD] ccMissingD "D" ["O"] 7 =
         .error () ∧
       get_base_c_sinmov [rowMissingD] "D" ccMissingD = .error ()) :=
  ⟨⟨by decide, by decide⟩,
    suggestion_ops_failure_semantics [rowMissingD] ccMissingD "O" "O.1" "D" 7
      ["O"] (by decide) (by decide)⟩
